import Mathlib

set_option maxHeartbeats 1000000

/-!
Shallow embedding of the audio-translation route of this repository
(`src/app/api/process-audio/route.ts`) together with a spec-modelled
source separator (the imported audio library module is not part of the
provided sources).  Definitions mirror the TypeScript source; theorems
at the end of the file settle the specification claims.
-/

/-- The `TTS_MODEL` record (route.ts lines 22-29) as a lookup from language
code strings; `none` models the absence of the key, so the
`Object.prototype.hasOwnProperty` test of line 66 is `Option.isSome`. -/
def TTS_MODEL (l : String) : Option String :=
  if l = "en" then some "Xenova/mms-tts-en"
  else if l = "es" then some "Xenova/mms-tts-es"
  else if l = "fr" then some "Xenova/mms-tts-fr"
  else if l = "de" then some "Xenova/mms-tts-de"
  else if l = "it" then some "Xenova/mms-tts-it"
  else if l = "pt" then some "Xenova/mms-tts-pt"
  else none

/-- The `TRANSLATION_LANG` record (route.ts lines 31-38). -/
def TRANSLATION_LANG (l : String) : Option String :=
  if l = "en" then some "en"
  else if l = "es" then some "es"
  else if l = "fr" then some "fr"
  else if l = "de" then some "de"
  else if l = "it" then some "it"
  else if l = "pt" then some "pt"
  else none

/-- `isSupportedLanguage` (route.ts lines 65-66): membership of the key in
the `TTS_MODEL` record. -/
def isSupportedLanguage (input : String) : Bool :=
  (TTS_MODEL input).isSome

/-- Total variant of the record access `TRANSLATION_LANG[l]`; only applied
to keys that passed `isSupportedLanguage`. -/
def translationLangFor (l : String) : String :=
  (TRANSLATION_LANG l).getD ""

/-- Module-level mutable state of route.ts (lines 40-42): the three lazily
filled singleton slots.  Promises are identified by the order of their
creation (`nextId`); `constructions` records every `pipeline(task, model)`
call together with the model identifier it was given. -/
structure ModuleState where
  asrPipelinePromise : Option Nat
  translationPipelinePromise : Option Nat
  ttsPipelines : List (String × Nat)
  nextId : Nat
  constructions : List (Nat × String)
deriving DecidableEq

/-- The state at module load: all slots empty, nothing constructed. -/
def initState : ModuleState :=
  ⟨none, none, [], 0, []⟩

/-- One call of `pipeline(task, model)`: allocates a fresh promise identity
and records the construction. -/
def pipelineCall (s : ModuleState) (model : String) : Nat × ModuleState :=
  (s.nextId,
   { s with
      nextId := s.nextId + 1
      constructions := s.constructions ++ [(s.nextId, model)] })

/-- `getASR` (route.ts lines 44-49): fill the slot when it is null, then
return whatever promise the slot holds. -/
def getASR (s : ModuleState) : Nat × ModuleState :=
  match s.asrPipelinePromise with
  | some p => (p, s)
  | none =>
    let r := pipelineCall s "Xenova/whisper-small"
    (r.1, { r.2 with asrPipelinePromise := some r.1 })

/-- `getTranslator` (route.ts lines 51-56). -/
def getTranslator (s : ModuleState) : Nat × ModuleState :=
  match s.translationPipelinePromise with
  | some p => (p, s)
  | none =>
    let r := pipelineCall s "Xenova/m2m100_418M"
    (r.1, { r.2 with translationPipelinePromise := some r.1 })

/-- Lookup in the `ttsPipelines` map, keyed by language code. -/
def lookupTTS : List (String × Nat) → String → Option Nat
  | [], _ => none
  | (k, v) :: rest, l => if l = k then some v else lookupTTS rest l

/-- `getTTS` (route.ts lines 58-63): `Map.has` / `Map.set` / `Map.get`. -/
def getTTS (s : ModuleState) (language : String) : Nat × ModuleState :=
  match lookupTTS s.ttsPipelines language with
  | some p => (p, s)
  | none =>
    let r := pipelineCall s ((TTS_MODEL language).getD "")
    (r.1, { r.2 with ttsPipelines := (language, r.1) :: r.2.ttsPipelines })

/-- One invocation of one of the three getters. -/
inductive GetterCall
  | asr
  | translator
  | tts (language : String)
deriving DecidableEq

/-- Dispatch a getter call against the module state. -/
def applyCall (s : ModuleState) : GetterCall → Nat × ModuleState
  | .asr => getASR s
  | .translator => getTranslator s
  | .tts l => getTTS s l

/-- Run a sequence of getter calls left to right, collecting the returned
promise identities. -/
def runCalls : ModuleState → List GetterCall → List Nat × ModuleState
  | s, [] => ([], s)
  | s, c :: cs =>
    let r := applyCall s c
    let rest := runCalls r.2 cs
    (r.1 :: rest.1, rest.2)

/-- The model identifier a call constructs when its slot is empty. -/
def modelOf : GetterCall → String
  | .asr => "Xenova/whisper-small"
  | .translator => "Xenova/m2m100_418M"
  | .tts l => (TTS_MODEL l).getD ""

/-- The singleton slot a call reads and fills. -/
def slotFor (s : ModuleState) : GetterCall → Option Nat
  | .asr => s.asrPipelinePromise
  | .translator => s.translationPipelinePromise
  | .tts l => lookupTTS s.ttsPipelines l

/-- A call is well formed when a TTS call carries a supported language code
(the route only reaches `getTTS` with a validated code). -/
def wfCall : GetterCall → Bool
  | .tts l => isSupportedLanguage l
  | _ => true

/-- How many `pipeline()` constructions were issued for model `m`. -/
def constructionsFor (s : ModuleState) (m : String) : Nat :=
  (s.constructions.filter (fun pr => pr.2 = m)).length

/-- A value stored in the multipart form data: either a `File` or a string. -/
inductive FormValue
  | file (name : String) (bytes : List Nat)
  | str (s : String)
deriving DecidableEq

/-- The two form fields the handler reads (route.ts lines 70-72). -/
structure FormDataBag where
  audio : Option FormValue
  targetLanguage : Option FormValue
deriving DecidableEq

/-- Line 72: `formData.get('targetLanguage') ?? 'es'`. -/
def targetRawOf (bag : FormDataBag) : FormValue :=
  bag.targetLanguage.getD (.str "es")

/-- Whether the `audio` field holds a `File` (line 74 `instanceof` test). -/
def audioIsFile (bag : FormDataBag) : Bool :=
  match bag.audio with
  | some (.file _ _) => true
  | _ => false

/-- The value the awaited ASR pipeline yields (route.ts lines 102-106):
either a bare string or an object with optional `text` and `language`. -/
inductive ASRResult
  | str (s : String)
  | obj (text : Option String) (language : Option String)
deriving DecidableEq

/-- Lines 108-113: derive `transcriptText` from the ASR result. -/
def transcriptTextOf : ASRResult → String
  | .str s => s
  | .obj (some t) _ => t
  | .obj none _ => ""

/-- Lines 119-121: `typeof asrResult === 'object' && asrResult?.language`;
a bare-string result yields no detected language. -/
def detectedLanguageOf : ASRResult → Option String
  | .str _ => none
  | .obj _ l => l

/-- Lines 125-128: the `src_lang` option passed to the translator — the
detected language when it is truthy and supported, `TRANSLATION_LANG.en`
otherwise. -/
def srcLangOf (r : ASRResult) : String :=
  match detectedLanguageOf r with
  | some l => if (l != "") && isSupportedLanguage l then translationLangFor l else "en"
  | none => "en"

/-- One element of an array-shaped translation result. -/
inductive TransItem
  | str (s : String)
  | obj (translation_text : Option String)
deriving DecidableEq

/-- The value the awaited translation pipeline yields (lines 130-133). -/
inductive TranslationResult
  | str (s : String)
  | obj (translation_text : Option String)
  | arr (items : List TransItem)
deriving DecidableEq

/-- Lines 135-141: derive `translatedText` from the translation result. -/
def translatedTextOf : TranslationResult → String
  | .arr (.str s :: _) => s
  | .arr (.obj (some t) :: _) => t
  | .arr (.obj none :: _) => ""
  | .arr [] => ""
  | .str s => s
  | .obj (some t) => t
  | .obj none => ""

/-- The `audio` field of a TTS result (lines 148-151): one channel or many. -/
inductive TTSAudio
  | single (c : List Int)
  | multi (cs : List (List Int))
deriving DecidableEq

/-- The value the awaited TTS pipeline yields. -/
structure TTSResult where
  audio : TTSAudio
  sampling_rate : Nat
deriving DecidableEq

/-- Lines 154-156: wrap a single channel into an array of channels. -/
def channelDataOf : TTSAudio → List (List Int)
  | .single c => [c]
  | .multi cs => cs

/-- The observable side effects of one request, in source order.  Each
event marks that the corresponding stage call was entered. -/
inductive StageEv
  | writeOriginalEv
  | convertEv
  | separateEv
  | asrEv
  | translateEv
  | ttsEv
  | encodeEv
  | writeVoiceEv
  | normalizeEv
  | mixEv
  | readMixEv
deriving DecidableEq

/-- The full stage sequence of a successful run, in source order
(route.ts lines 96-168). -/
def canonicalEvents : List StageEv :=
  [.writeOriginalEv, .convertEv, .separateEv, .asrEv, .translateEv, .ttsEv,
   .encodeEv, .writeVoiceEv, .normalizeEv, .mixEv, .readMixEv]

/-- Oracle for one request: the outcome of every awaited effect in the
handler.  An `Except.error m` means that await rejected with message `m`. -/
structure StageEnv where
  formDataRes : Except String FormDataBag
  mkdtempRes : Except String Unit
  writeOriginalRes : Except String Unit
  convertToWavRes : Except String Unit
  createInstrumentalRes : Except String Unit
  asrRes : Except String ASRResult
  translatorRes : Except String TranslationResult
  ttsRes : Except String TTSResult
  encodeRes : Except String Unit
  writeVoiceRes : Except String Unit
  normalizeVoiceRes : Except String Unit
  mixTracksRes : Except String Unit
  readMixRes : Except String (List Nat)
  rmRes : Except String Unit

/-- What the body of the inner `try` (lines 86-175) produces: the mix bytes
on success or the thrown error, the trace of stage calls entered, and the
arguments of the translator call when one was made
(`(text, src_lang, tgt_lang)`). -/
structure InnerOut where
  result : Except String (List Nat)
  events : List StageEv
  translatorArgs : Option (String × String × String)

/-- The body of the inner `try` block (route.ts lines 86-175), stage by
stage in source order.  `tgt` is the validated target language. -/
def innerRun (env : StageEnv) (tgt : String) : InnerOut :=
  match env.writeOriginalRes with
  | .error m => ⟨.error m, [.writeOriginalEv], none⟩
  | .ok _ =>
  match env.convertToWavRes with
  | .error m => ⟨.error m, [.writeOriginalEv, .convertEv], none⟩
  | .ok _ =>
  match env.createInstrumentalRes with
  | .error m => ⟨.error m, [.writeOriginalEv, .convertEv, .separateEv], none⟩
  | .ok _ =>
  match env.asrRes with
  | .error m => ⟨.error m, [.writeOriginalEv, .convertEv, .separateEv, .asrEv], none⟩
  | .ok asrResult =>
  if transcriptTextOf asrResult = "" then
    ⟨.error "Unable to derive transcript from audio.",
     [.writeOriginalEv, .convertEv, .separateEv, .asrEv], none⟩
  else
  let args := (transcriptTextOf asrResult, srcLangOf asrResult, translationLangFor tgt)
  match env.translatorRes with
  | .error m =>
    ⟨.error m, [.writeOriginalEv, .convertEv, .separateEv, .asrEv, .translateEv], some args⟩
  | .ok translationResult =>
  if translatedTextOf translationResult = "" then
    ⟨.error "Translation failed to produce output.",
     [.writeOriginalEv, .convertEv, .separateEv, .asrEv, .translateEv], some args⟩
  else
  match env.ttsRes with
  | .error m =>
    ⟨.error m,
     [.writeOriginalEv, .convertEv, .separateEv, .asrEv, .translateEv, .ttsEv], some args⟩
  | .ok _ =>
  match env.encodeRes with
  | .error m =>
    ⟨.error m,
     [.writeOriginalEv, .convertEv, .separateEv, .asrEv, .translateEv, .ttsEv, .encodeEv],
     some args⟩
  | .ok _ =>
  match env.writeVoiceRes with
  | .error m =>
    ⟨.error m,
     [.writeOriginalEv, .convertEv, .separateEv, .asrEv, .translateEv, .ttsEv, .encodeEv,
      .writeVoiceEv], some args⟩
  | .ok _ =>
  match env.normalizeVoiceRes with
  | .error m =>
    ⟨.error m,
     [.writeOriginalEv, .convertEv, .separateEv, .asrEv, .translateEv, .ttsEv, .encodeEv,
      .writeVoiceEv, .normalizeEv], some args⟩
  | .ok _ =>
  match env.mixTracksRes with
  | .error m =>
    ⟨.error m,
     [.writeOriginalEv, .convertEv, .separateEv, .asrEv, .translateEv, .ttsEv, .encodeEv,
      .writeVoiceEv, .normalizeEv, .mixEv], some args⟩
  | .ok _ =>
  match env.readMixRes with
  | .error m => ⟨.error m, canonicalEvents, some args⟩
  | .ok bytes => ⟨.ok bytes, canonicalEvents, some args⟩

/-- Body of an HTTP response: a textual message or the mix bytes. -/
inductive RespBody
  | text (s : String)
  | bytes (b : List Nat)
deriving DecidableEq

/-- An HTTP response as the handler builds it: status code and body. -/
structure HttpResponse where
  status : Nat
  body : RespBody
deriving DecidableEq

/-- The uniform internal-failure response of the outer catch (line 181). -/
def genericFailure : HttpResponse :=
  ⟨500, .text "Failed to process audio"⟩

/-- Everything observable about one `POST` invocation: the response, the
stage trace, whether `mkdtemp` ran, whether the scratch directory is still
present after return, whether `rm` was executed, the translator-call
arguments, and the messages passed to `console.error`. -/
structure PostOutcome where
  response : HttpResponse
  events : List StageEv
  workspaceCreated : Bool
  workspaceExistsAfter : Bool
  rmAttempted : Bool
  translatorArgs : Option (String × String × String)
  logged : List String

/-- The `try`/`finally` around the workspace (lines 86-178) together with
the outer catch (lines 179-182).  JavaScript semantics: when the awaited
`rm` in the `finally` rejects, that rejection replaces the pending
completion of the `try` block — the success response or inner error is
discarded and the outer catch handles the `rm` error. -/
def afterWorkspace (env : StageEnv) (tgt : String) : PostOutcome :=
  match env.rmRes with
  | .ok _ =>
    match (innerRun env tgt).result with
    | .ok bytes =>
      ⟨⟨200, .bytes bytes⟩, (innerRun env tgt).events, true, false, true,
       (innerRun env tgt).translatorArgs, []⟩
    | .error m =>
      ⟨genericFailure, (innerRun env tgt).events, true, false, true,
       (innerRun env tgt).translatorArgs, [m]⟩
  | .error mr =>
    ⟨genericFailure, (innerRun env tgt).events, true, true, true,
     (innerRun env tgt).translatorArgs, [mr]⟩

/-- Line 84: `mkdtemp` is awaited before the inner `try`; its rejection is
handled by the outer catch with no workspace created. -/
def afterValidation (env : StageEnv) (tgt : String) : PostOutcome :=
  match env.mkdtempRes with
  | .error m => ⟨genericFailure, [], false, false, false, none, [m]⟩
  | .ok _ => afterWorkspace env tgt

/-- Lines 70-82: read the form fields, check the audio payload, then check
the (defaulted) target language, in that order. -/
def handleBag (env : StageEnv) (bag : FormDataBag) : PostOutcome :=
  match bag.audio with
  | some (.file _ _) =>
    match targetRawOf bag with
    | .file _ _ =>
      ⟨⟨400, .text "Unsupported target language"⟩, [], false, false, false, none, []⟩
    | .str s =>
      if isSupportedLanguage s then afterValidation env s
      else ⟨⟨400, .text "Unsupported target language"⟩, [], false, false, false, none, []⟩
  | _ => ⟨⟨400, .text "Missing audio file payload"⟩, [], false, false, false, none, []⟩

/-- The whole `POST` handler (route.ts lines 68-183). -/
def POSTrun (env : StageEnv) : PostOutcome :=
  match env.formDataRes with
  | .error m => ⟨genericFailure, [], false, false, false, none, [m]⟩
  | .ok bag => handleBag env bag

/-- Request validation (lines 70-82) passed with validated target `tgt`:
the form parsed, the audio field is a `File`, and the possibly defaulted
target language resolves to the supported code `tgt`. -/
def validationPasses (env : StageEnv) (bag : FormDataBag) (tgt : String) : Prop :=
  env.formDataRes = .ok bag ∧ audioIsFile bag = true ∧
    targetRawOf bag = .str tgt ∧ isSupportedLanguage tgt = true

/-- A fully successful request whose `targetLanguage` field is absent. -/
def okBag : FormDataBag :=
  ⟨some (.file "song.mp3" [0, 1, 2]), none⟩

/-- Oracle in which every awaited effect succeeds and both collaborators
return non-empty text. -/
def envAll : StageEnv :=
  { formDataRes := .ok okBag
    mkdtempRes := .ok ()
    writeOriginalRes := .ok ()
    convertToWavRes := .ok ()
    createInstrumentalRes := .ok ()
    asrRes := .ok (.obj (some "hello world") (some "en"))
    translatorRes := .ok (.str "hola mundo")
    ttsRes := .ok ⟨.single [0, 1], 16000⟩
    encodeRes := .ok ()
    writeVoiceRes := .ok ()
    normalizeVoiceRes := .ok ()
    mixTracksRes := .ok ()
    readMixRes := .ok [9, 9, 9]
    rmRes := .ok () }

/-- Same as `envAll` except that the recursive delete of the workspace
rejects. -/
def envRmFail : StageEnv :=
  { envAll with rmRes := .error "EACCES: permission denied" }

/-- A request whose `targetLanguage` field is present but unsupported. -/
def badLangBag : FormDataBag :=
  ⟨some (.file "song.mp3" [0]), some (.str "zz")⟩

/-- `envAll` with the unsupported-language request. -/
def envBadLang : StageEnv :=
  { envAll with formDataRes := .ok badLangBag }

/-- `envAll` with an ASR result that carries no text at all. -/
def envEmptyASR : StageEnv :=
  { envAll with asrRes := .ok (.obj none none) }

/-- `envAll` with a translation result that is the empty string. -/
def envEmptyTrans : StageEnv :=
  { envAll with translatorRes := .ok (.str "") }

/-- `envAll` with an ASR result that detects no source language. -/
def envNoDetect : StageEnv :=
  { envAll with asrRes := .ok (.obj (some "hello world") none) }

/-- `envAll` with a mixing stage that throws. -/
def envStageFail : StageEnv :=
  { envAll with mixTracksRes := .error "ffmpeg exited with code 1" }

/-- `envAll` with a request that carries no audio file at all. -/
def envNoAudio : StageEnv :=
  { envAll with formDataRes := .ok ⟨none, none⟩ }

/-- Modelled from the spec: the repository imports `convertToWav`,
`createInstrumental`, `mixTracks` and `normalizeVoice` from an audio
library module that is absent from the provided sources, so the
`AudioBuffer` data model follows §3 of the spec — per-channel sample
lists plus a sample rate, with all channels of equal length and one or
two channels. -/
structure AudioBuffer where
  channels : List (List ℚ)
  sampleRate : Nat
deriving DecidableEq

/-- The §3/§4.3 validity invariant of an `AudioBuffer`: one or two
channels, all of equal length. -/
def validBuffer (b : AudioBuffer) : Prop :=
  (b.channels.length = 1 ∨ b.channels.length = 2) ∧
    ∀ c ∈ b.channels, ∀ c' ∈ b.channels, c.length = c'.length

/-- Modelled from the spec: §4.3 mono attenuation heuristic — a simple
sample-wise attenuation, which preserves length by construction. -/
def attenuate (c : List ℚ) : List ℚ :=
  c.map (fun x => x / 2)

/-- Modelled from the spec: `separateInstrumental` of §4.3 (the
`createInstrumental` entry point of the missing audio library).  Stereo
input undergoes center-channel cancellation (one channel subtracted from
the other, written to both output channels); mono input undergoes the
attenuation heuristic; an invariant-violating buffer propagates
`InvalidAudioStateError`. -/
def separateInstrumental (b : AudioBuffer) : Except String AudioBuffer :=
  match b.channels with
  | [l, r] =>
    if l.length = r.length then
      .ok ⟨[List.zipWith (fun x y => x - y) l r, List.zipWith (fun x y => x - y) l r],
           b.sampleRate⟩
    else .error "InvalidAudioStateError"
  | [c] => .ok ⟨[attenuate c], b.sampleRate⟩
  | _ => .error "InvalidAudioStateError"

/-- A concrete valid stereo buffer. -/
def bufStereo : AudioBuffer :=
  ⟨[[1, 2], [3, 4]], 44100⟩

/-! ## Theorems about the singleton pipeline getters -/

/-- A getter whose slot is already filled returns the cached promise and
leaves the module state untouched. -/
theorem applyCall_of_slot {s : ModuleState} {c : GetterCall} {p : Nat}
    (h : slotFor s c = some p) : applyCall s c = (p, s) := by
  cases c <;> simp [slotFor] at h <;>
    simp [applyCall, getASR, getTranslator, getTTS, h]

/-- After a getter runs, its slot holds exactly the promise it returned. -/
theorem slot_self (s : ModuleState) (c : GetterCall) :
    slotFor (applyCall s c).2 c = some (applyCall s c).1 := by
  cases c with
  | asr =>
    cases h : s.asrPipelinePromise <;>
      simp [applyCall, getASR, pipelineCall, slotFor, h]
  | translator =>
    cases h : s.translationPipelinePromise <;>
      simp [applyCall, getTranslator, pipelineCall, slotFor, h]
  | tts l =>
    cases h : lookupTTS s.ttsPipelines l <;>
      simp [applyCall, getTTS, pipelineCall, slotFor, lookupTTS, h]

/-- A getter call never touches the slot of a different getter call. -/
theorem slot_other (s : ModuleState) (c c' : GetterCall) (hne : c' ≠ c) :
    slotFor (applyCall s c).2 c' = slotFor s c' := by
  cases c with
  | asr =>
    cases h : s.asrPipelinePromise <;> cases c' <;>
      first
        | exact absurd rfl hne
        | simp [applyCall, getASR, pipelineCall, slotFor, h]
  | translator =>
    cases h : s.translationPipelinePromise <;> cases c' <;>
      first
        | exact absurd rfl hne
        | simp [applyCall, getTranslator, pipelineCall, slotFor, h]
  | tts l =>
    cases h : lookupTTS s.ttsPipelines l with
    | some p => simp [applyCall, getTTS, h]
    | none =>
      cases c' with
      | asr => simp [applyCall, getTTS, pipelineCall, slotFor, h]
      | translator => simp [applyCall, getTTS, pipelineCall, slotFor, h]
      | tts l' =>
        have hll : l' ≠ l := by simpa using hne
        simp [applyCall, getTTS, pipelineCall, slotFor, lookupTTS, h, hll]

/-- Filled slots survive any later getter call. -/
theorem slot_mono {s : ModuleState} {c : GetterCall} {p : Nat} (c₀ : GetterCall)
    (h : slotFor s c = some p) : slotFor (applyCall s c₀).2 c = some p := by
  by_cases hc : c = c₀
  · subst hc
    rw [applyCall_of_slot h]
    exact h
  · rw [slot_other s c₀ c hc]
    exact h

/-- A getter whose slot is empty issues exactly one `pipeline()` call, for
its own model identifier. -/
theorem constructions_fresh {s : ModuleState} {c : GetterCall}
    (h : slotFor s c = none) :
    (applyCall s c).2.constructions =
      s.constructions ++ [((applyCall s c).1, modelOf c)] := by
  cases c <;> simp [slotFor] at h <;>
    simp [applyCall, getASR, getTranslator, getTTS, pipelineCall, modelOf, h]

/-- Counting filtered constructions across an appended record. -/
theorem countFor_append (xs : List (Nat × String)) (pr : Nat × String) (m : String) :
    ((xs ++ [pr]).filter (fun q => q.2 = m)).length =
      (xs.filter (fun q => q.2 = m)).length + (if pr.2 = m then 1 else 0) := by
  rcases pr with ⟨p, m'⟩
  by_cases h : m' = m <;> simp [List.filter_append, List.filter, h]

/-- A supported language code is one of the six enumerated codes. -/
theorem supported_mem {l : String} (h : isSupportedLanguage l = true) :
    l = "en" ∨ l = "es" ∨ l = "fr" ∨ l = "de" ∨ l = "it" ∨ l = "pt" := by
  unfold isSupportedLanguage TTS_MODEL at h
  split_ifs at h with h1 h2 h3 h4 h5 h6
  · exact Or.inl h1
  · exact Or.inr (Or.inl h2)
  · exact Or.inr (Or.inr (Or.inl h3))
  · exact Or.inr (Or.inr (Or.inr (Or.inl h4)))
  · exact Or.inr (Or.inr (Or.inr (Or.inr (Or.inl h5))))
  · exact Or.inr (Or.inr (Or.inr (Or.inr (Or.inr h6))))
  · simp at h

/-- Distinct well-formed getter calls construct distinct model
identifiers. -/
theorem modelOf_ne {c c' : GetterCall} (hwf : wfCall c = true) (hne : c ≠ c') :
    modelOf c ≠ modelOf c' := by
  cases c with
  | asr =>
    cases c' with
    | asr => exact absurd rfl hne
    | translator => decide
    | tts l' =>
      intro hmod
      simp only [modelOf, TTS_MODEL] at hmod
      split_ifs at hmod <;> simp_all
  | translator =>
    cases c' with
    | asr => decide
    | translator => exact absurd rfl hne
    | tts l' =>
      intro hmod
      simp only [modelOf, TTS_MODEL] at hmod
      split_ifs at hmod <;> simp_all
  | tts l =>
    have hl := supported_mem (by simpa [wfCall] using hwf)
    cases c' with
    | asr =>
      rcases hl with h | h | h | h | h | h <;> subst h <;> decide
    | translator =>
      rcases hl with h | h | h | h | h | h <;> subst h <;> decide
    | tts l' =>
      have hll : l ≠ l' := by simpa using hne
      intro hmod
      rcases hl with h | h | h | h | h | h <;> subst h <;>
        (simp only [modelOf, TTS_MODEL] at hmod; split_ifs at hmod <;> simp_all)

/-- One getter call preserves the single-construction invariant: the number
of constructions for a well-formed call's model equals one exactly when its
slot is filled. -/
theorem J_step {s : ModuleState}
    (hJ : ∀ c, wfCall c = true →
      constructionsFor s (modelOf c) = if (slotFor s c).isSome then 1 else 0)
    (c₀ : GetterCall) :
    ∀ c, wfCall c = true →
      constructionsFor (applyCall s c₀).2 (modelOf c) =
        if (slotFor (applyCall s c₀).2 c).isSome then 1 else 0 := by
  intro c hwf
  cases h0 : slotFor s c₀ with
  | some p =>
    rw [applyCall_of_slot h0]
    exact hJ c hwf
  | none =>
    by_cases hc : c = c₀
    · subst hc
      have hold := hJ c hwf
      rw [h0] at hold
      simp only [Option.isSome_none, Bool.false_eq_true, if_false] at hold
      have hself := slot_self s c
      unfold constructionsFor
      rw [constructions_fresh h0, countFor_append, hself]
      unfold constructionsFor at hold
      rw [hold]
      simp
    · have hslot := slot_other s c₀ c hc
      rw [hslot]
      have hne : modelOf c₀ ≠ modelOf c := (modelOf_ne hwf hc).symm
      unfold constructionsFor
      rw [constructions_fresh h0, countFor_append, if_neg hne]
      exact hJ c hwf

/-- The single-construction invariant holds in the initial module state. -/
theorem J_init :
    ∀ c, wfCall c = true →
      constructionsFor initState (modelOf c) =
        if (slotFor initState c).isSome then 1 else 0 := by
  intro c _
  cases c <;> simp [constructionsFor, initState, slotFor, lookupTTS]

/-- The single-construction invariant holds after any sequence of getter
calls from the initial module state. -/
theorem J_run (cs : List GetterCall) :
    ∀ c, wfCall c = true →
      constructionsFor (runCalls initState cs).2 (modelOf c) =
        if (slotFor (runCalls initState cs).2 c).isSome then 1 else 0 := by
  have general : ∀ (ds : List GetterCall) (s : ModuleState),
      (∀ c, wfCall c = true →
        constructionsFor s (modelOf c) = if (slotFor s c).isSome then 1 else 0) →
      ∀ c, wfCall c = true →
        constructionsFor (runCalls s ds).2 (modelOf c) =
          if (slotFor (runCalls s ds).2 c).isSome then 1 else 0 := by
    intro ds
    induction ds with
    | nil => intro s h; exact h
    | cons c₀ ds ih => intro s h; exact ih _ (J_step h c₀)
  exact general cs initState J_init

/-- Filled slots survive any later sequence of getter calls. -/
theorem slot_mono_run {s : ModuleState} {c : GetterCall} {p : Nat}
    (cs : List GetterCall) (h : slotFor s c = some p) :
    slotFor (runCalls s cs).2 c = some p := by
  induction cs generalizing s with
  | nil => exact h
  | cons c₀ cs ih => exact ih (slot_mono c₀ h)

/-- After a call sequence containing `c`, the slot of `c` is filled. -/
theorem slot_of_mem {c : GetterCall} (cs : List GetterCall) :
    ∀ s, c ∈ cs → ((slotFor (runCalls s cs).2 c).isSome = true) := by
  induction cs with
  | nil => intro s h; cases h
  | cons c₀ cs ih =>
    intro s hmem
    by_cases hc : c ∈ cs
    · exact ih _ hc
    · have hc0 : c = c₀ := by
        rcases List.mem_cons.mp hmem with h | h
        · exact h
        · exact absurd h hc
      subst hc0
      have hself := slot_self s c
      have := slot_mono_run cs hself
      show (slotFor (runCalls (applyCall s c).2 cs).2 c).isSome = true
      rw [this]
      rfl

/-- Once a slot is filled with `p`, every later call of that getter in a
sequence returns `p`. -/
theorem result_of_slot {s : ModuleState} {c : GetterCall} {p : Nat}
    (cs : List GetterCall) (h : slotFor s c = some p) :
    ∀ i : Nat, cs[i]? = some c → (runCalls s cs).1[i]? = some p := by
  induction cs generalizing s with
  | nil => intro i hi; simp at hi
  | cons c₀ cs ih =>
    intro i hi
    cases i with
    | zero =>
      simp at hi
      subst hi
      have := applyCall_of_slot h
      simp [runCalls, this]
    | succ j =>
      simp at hi
      have h' : slotFor (applyCall s c₀).2 c = some p := slot_mono c₀ h
      have := ih h' j hi
      simpa [runCalls] using this

/-- Any two occurrences of the same getter call in a sequence return the
same promise. -/
theorem results_agree (cs : List GetterCall) :
    ∀ (s : ModuleState) (i j : Nat) (c : GetterCall),
      cs[i]? = some c → cs[j]? = some c →
      (runCalls s cs).1[i]? = (runCalls s cs).1[j]? := by
  induction cs with
  | nil => intro s i j c hi _; simp at hi
  | cons c₀ cs ih =>
    intro s i j c hi hj
    cases i with
    | zero =>
      cases j with
      | zero => rfl
      | succ j' =>
        simp at hi hj
        subst hi
        have hs := slot_self s c₀
        have := result_of_slot cs hs j' hj
        simp [runCalls, this]
    | succ i' =>
      cases j with
      | zero =>
        simp at hi hj
        subst hj
        have hs := slot_self s c₀
        have := result_of_slot cs hs i' hi
        simp [runCalls, this]
      | succ j' =>
        simp at hi hj
        have := ih (applyCall s c₀).2 i' j' c hi hj
        simpa [runCalls] using this

/-- C4: across any interleaving of getter invocations in one process
lifetime, two invocations of the same getter (`getASR`, `getTranslator`,
or `getTTS` with the same supported language) always return the same
cached promise, and each invoked model identifier is constructed by
`pipeline()` exactly once. -/
theorem model_construction_single_flight (cs : List GetterCall) :
    (∀ (i j : Nat) (c : GetterCall), cs[i]? = some c → cs[j]? = some c →
      (runCalls initState cs).1[i]? = (runCalls initState cs).1[j]?) ∧
    (∀ c, wfCall c = true → c ∈ cs →
      constructionsFor (runCalls initState cs).2 (modelOf c) = 1) := by
  constructor
  · exact fun i j c hi hj => results_agree cs initState i j c hi hj
  · intro c hwf hmem
    have hJ := J_run cs c hwf
    rw [hJ, slot_of_mem cs initState hmem]
    rfl

/-- Witness for C4 at a concrete call sequence. -/
theorem model_construction_single_flight_check :
    (runCalls initState [GetterCall.asr, GetterCall.tts "es", GetterCall.asr]).1[0]? =
      (runCalls initState [GetterCall.asr, GetterCall.tts "es", GetterCall.asr]).1[2]? ∧
    constructionsFor
      (runCalls initState [GetterCall.asr, GetterCall.tts "es", GetterCall.asr]).2
      (modelOf (GetterCall.tts "es")) = 1 := by
  have h := model_construction_single_flight [.asr, .tts "es", .asr]
  exact ⟨h.1 0 2 .asr (by decide) (by decide), h.2 (.tts "es") (by decide) (by decide)⟩

/-- Once a slot is filled, the constructions of that model never grow
across any later call sequence. -/
theorem count_stable {s : ModuleState} {c : GetterCall} {p : Nat}
    (cs : List GetterCall) (hwf : wfCall c = true) (h : slotFor s c = some p) :
    constructionsFor (runCalls s cs).2 (modelOf c) = constructionsFor s (modelOf c) := by
  induction cs generalizing s with
  | nil => rfl
  | cons c₀ cs ih =>
    have hstep : constructionsFor (applyCall s c₀).2 (modelOf c) =
        constructionsFor s (modelOf c) := by
      cases h0 : slotFor s c₀ with
      | some q => rw [applyCall_of_slot h0]
      | none =>
        have hne : c ≠ c₀ := by
          intro he
          subst he
          rw [h] at h0
          cases h0
        unfold constructionsFor
        rw [constructions_fresh h0, countFor_append,
            if_neg (Ne.symm (modelOf_ne hwf hne))]
        simp
    have hslot := slot_mono c₀ h
    exact (ih hslot).trans hstep

/-- C10: when the slot of a getter already holds a promise `p` — in
particular a rejected one, since the getters of route.ts lines 44-63 test
only whether the slot is null and never inspect the promise's outcome —
every later invocation of that getter returns the same promise `p`, and
`pipeline()` is never invoked again for that model. -/
theorem failed_construction_stays_cached (rejected : Nat → Bool)
    (cs : List GetterCall) (s : ModuleState) (c : GetterCall) (p : Nat)
    (hwf : wfCall c = true) (hslot : slotFor s c = some p)
    (hrej : rejected p = true) :
    (∀ i : Nat, cs[i]? = some c → (runCalls s cs).1[i]? = some p) ∧
    constructionsFor (runCalls s cs).2 (modelOf c) = constructionsFor s (modelOf c) :=
  ⟨fun i hi => result_of_slot cs hslot i hi, count_stable cs hwf hslot⟩

/-- Witness for C10: after a first `getASR` call, later calls return the
same promise and no further ASR construction happens. -/
theorem failed_construction_stays_cached_check :
    (runCalls (runCalls initState [GetterCall.asr]).2
      [GetterCall.asr, GetterCall.translator, GetterCall.asr]).1[0]? = some 0 ∧
    constructionsFor
      (runCalls (runCalls initState [GetterCall.asr]).2
        [GetterCall.asr, GetterCall.translator, GetterCall.asr]).2
      (modelOf GetterCall.asr) =
    constructionsFor (runCalls initState [GetterCall.asr]).2
      (modelOf GetterCall.asr) := by
  have h := failed_construction_stays_cached (fun _ => true)
      [.asr, .translator, .asr] (runCalls initState [.asr]).2 .asr 0
      (by decide) (by decide) (by decide)
  exact ⟨h.1 0 (by decide), h.2⟩

/-! ## Theorems about the POST handler -/

/-- A bag whose audio field passed the `instanceof File` test holds a file. -/
theorem audioIsFile_elim {bag : FormDataBag} (h : audioIsFile bag = true) :
    ∃ n b, bag.audio = some (.file n b) := by
  unfold audioIsFile at h
  cases ha : bag.audio with
  | none => rw [ha] at h; simp at h
  | some v =>
    cases v with
    | file n b => exact ⟨n, b, rfl⟩
    | str s => rw [ha] at h; simp at h

/-- When request validation passes, the handler proceeds to workspace
acquisition with the validated target language. -/
theorem POSTrun_valid {env : StageEnv} {bag : FormDataBag} {tgt : String}
    (hv : validationPasses env bag tgt) :
    POSTrun env = afterValidation env tgt := by
  obtain ⟨hf, haud, htr, hsup⟩ := hv
  obtain ⟨n, b, ha⟩ := audioIsFile_elim haud
  simp [POSTrun, hf, handleBag, ha, htr, hsup]

/-- A present target-language value that is not a supported-language string
is rejected before any processing, whatever the audio field holds. -/
theorem target_invalid_response {env : StageEnv} {bag : FormDataBag} {v : FormValue}
    (hf : env.formDataRes = .ok bag) (htr : targetRawOf bag = v)
    (hbad : ∀ s, v = FormValue.str s → isSupportedLanguage s = false) :
    (POSTrun env).response.status = 400 ∧
    (POSTrun env).workspaceCreated = false ∧
    (POSTrun env).events = [] ∧
    (audioIsFile bag = true →
      (POSTrun env).response = ⟨400, .text "Unsupported target language"⟩) := by
  cases ha : bag.audio with
  | none => simp [POSTrun, hf, handleBag, ha, audioIsFile]
  | some w =>
    cases w with
    | str s => simp [POSTrun, hf, handleBag, ha, audioIsFile]
    | file n b =>
      cases v with
      | file n' b' => simp [POSTrun, hf, handleBag, ha, htr]
      | str s =>
        have hs := hbad s rfl
        simp [POSTrun, hf, handleBag, ha, htr, hs]

/-- C1 (amended): a request whose target-language field is PRESENT and not
a member of the supported set is rejected with a 400 response before any
processing — no workspace is created and no stage or collaborator is
invoked; an ABSENT field, however, is defaulted to `'es'` (route.ts line
72) and accepted, contrary to the original claim. -/
theorem present_invalid_target_rejected (env : StageEnv) (bag : FormDataBag)
    (v : FormValue) (hf : env.formDataRes = .ok bag)
    (htv : bag.targetLanguage = some v)
    (hbad : ∀ s, v = FormValue.str s → isSupportedLanguage s = false) :
    (POSTrun env).response.status = 400 ∧
    (POSTrun env).workspaceCreated = false ∧
    (POSTrun env).events = [] := by
  have htr : targetRawOf bag = v := by simp [targetRawOf, htv]
  have h := target_invalid_response hf htr hbad
  exact ⟨h.1, h.2.1, h.2.2.1⟩

/-- Witness for the amended C1 at the concrete unsupported code `"zz"`. -/
theorem present_invalid_target_rejected_check :
    (POSTrun envBadLang).response.status = 400 ∧
    (POSTrun envBadLang).workspaceCreated = false ∧
    (POSTrun envBadLang).events = [] :=
  present_invalid_target_rejected envBadLang badLangBag (.str "zz") rfl rfl
    (fun s hs => by cases hs; decide)

/-- C1 counterexample: a request with a valid audio file and NO
target-language field is not rejected — the handler defaults the language
to `'es'`, creates the workspace, and runs the collaborators to a 200
response. -/
theorem absent_target_language_not_rejected :
    okBag.targetLanguage = none ∧
    (POSTrun envAll).response.status = 200 ∧
    (POSTrun envAll).workspaceCreated = true ∧
    StageEv.asrEv ∈ (POSTrun envAll).events := by
  refine ⟨rfl, rfl, rfl, ?_⟩
  decide

/-- C2: whenever the handler creates the workspace, the `finally` block
executes the recursive delete on every exit path, and when that delete
succeeds the scratch directory no longer exists after the handler
returns. -/
theorem workspace_cleanup_every_exit (env : StageEnv) :
    ((POSTrun env).workspaceCreated = true → (POSTrun env).rmAttempted = true) ∧
    (env.rmRes = Except.ok () → (POSTrun env).workspaceExistsAfter = false) := by
  cases hf : env.formDataRes with
  | error m => simp [POSTrun, hf]
  | ok bag =>
    cases ha : bag.audio with
    | none => simp [POSTrun, hf, handleBag, ha]
    | some v =>
      cases v with
      | str s => simp [POSTrun, hf, handleBag, ha]
      | file n b =>
        cases htv : targetRawOf bag with
        | file n' b' => simp [POSTrun, hf, handleBag, ha, htv]
        | str s =>
          by_cases hs : isSupportedLanguage s
          case neg => simp [POSTrun, hf, handleBag, ha, htv, hs]
          case pos =>
            cases hmk : env.mkdtempRes with
            | error m =>
              simp [POSTrun, hf, handleBag, ha, htv, hs, afterValidation, hmk]
            | ok u =>
              cases hrm : env.rmRes with
              | error mr =>
                constructor
                · intro
                  simp [POSTrun, hf, handleBag, ha, htv, hs, afterValidation, hmk,
                        afterWorkspace, hrm]
                · intro hok
                  simp at hok
              | ok u' =>
                cases hres : (innerRun env s).result <;>
                  simp [POSTrun, hf, handleBag, ha, htv, hs, afterValidation, hmk,
                        afterWorkspace, hrm, hres]

/-- Witness for C2 on the all-success request. -/
theorem workspace_cleanup_every_exit_check :
    (POSTrun envAll).rmAttempted = true ∧
    (POSTrun envAll).workspaceExistsAfter = false :=
  ⟨(workspace_cleanup_every_exit envAll).1 rfl,
   (workspace_cleanup_every_exit envAll).2 rfl⟩

/-- C3 counterexample: all stages succeed and the inner `try` produces the
success bytes, yet when the recursive delete rejects, the handler returns
the generic 500 failure response instead of the already-produced success
response. -/
theorem cleanup_failure_changes_response :
    (innerRun envRmFail "es").result = Except.ok [9, 9, 9] ∧
    (POSTrun envRmFail).response = genericFailure ∧
    (POSTrun envRmFail).response.status = 500 :=
  ⟨rfl, rfl, rfl⟩

/-- C3 (amended): when the run succeeds internally but the cleanup delete
fails, the deletion error is caught by the outer handler and logged — the
raw error never reaches the caller — but the handler returns the generic
500 failure response in place of the already-produced success response. -/
theorem cleanup_failure_logged_generic (env : StageEnv) (bag : FormDataBag)
    (tgt : String) (mr : String) (bytes : List Nat)
    (hv : validationPasses env bag tgt) (hmk : env.mkdtempRes = .ok ())
    (hres : (innerRun env tgt).result = .ok bytes)
    (hrm : env.rmRes = .error mr) :
    (POSTrun env).response = genericFailure ∧
    (POSTrun env).rmAttempted = true ∧
    (POSTrun env).logged = [mr] := by
  rw [POSTrun_valid hv]
  simp [afterValidation, hmk, afterWorkspace, hrm]

/-- Witness for the amended C3 on the concrete delete failure. -/
theorem cleanup_failure_logged_generic_check :
    (POSTrun envRmFail).response = genericFailure ∧
    (POSTrun envRmFail).rmAttempted = true ∧
    (POSTrun envRmFail).logged = ["EACCES: permission denied"] :=
  cleanup_failure_logged_generic envRmFail okBag "es" "EACCES: permission denied"
    [9, 9, 9] ⟨rfl, rfl, rfl, by decide⟩ rfl rfl rfl

/-- An error thrown inside the inner `try` always surfaces as the generic
500 failure response. -/
theorem response_of_inner_error {env : StageEnv} {bag : FormDataBag} {tgt m : String}
    (hv : validationPasses env bag tgt)
    (he : (innerRun env tgt).result = .error m) :
    (POSTrun env).response = genericFailure := by
  rw [POSTrun_valid hv]
  cases hmk : env.mkdtempRes with
  | error m' => simp [afterValidation, hmk]
  | ok u =>
    cases hrm : env.rmRes with
    | error mr => simp [afterValidation, hmk, afterWorkspace, hrm]
    | ok u' => simp [afterValidation, hmk, afterWorkspace, hrm, he]

/-- C5: an empty or missing transcript makes the run throw before the
translator is invoked, and an empty translation output makes it throw
before TTS is invoked; in both cases the handler returns a failure
response and no later stage or output byte stream is produced. -/
theorem empty_collaborator_output_is_error (env : StageEnv) (bag : FormDataBag)
    (tgt : String) (hv : validationPasses env bag tgt)
    (hwo : env.writeOriginalRes = .ok ()) (hcv : env.convertToWavRes = .ok ())
    (hci : env.createInstrumentalRes = .ok ()) :
    (∀ r, env.asrRes = .ok r → transcriptTextOf r = "" →
      (innerRun env tgt).result = .error "Unable to derive transcript from audio." ∧
      StageEv.translateEv ∉ (innerRun env tgt).events ∧
      StageEv.ttsEv ∉ (innerRun env tgt).events ∧
      StageEv.mixEv ∉ (innerRun env tgt).events ∧
      (POSTrun env).response = genericFailure) ∧
    (∀ r tr, env.asrRes = .ok r → transcriptTextOf r ≠ "" →
      env.translatorRes = .ok tr → translatedTextOf tr = "" →
      (innerRun env tgt).result = .error "Translation failed to produce output." ∧
      StageEv.ttsEv ∉ (innerRun env tgt).events ∧
      StageEv.mixEv ∉ (innerRun env tgt).events ∧
      (POSTrun env).response = genericFailure) := by
  constructor
  · intro r har h
    have hinner : innerRun env tgt =
        ⟨.error "Unable to derive transcript from audio.",
         [.writeOriginalEv, .convertEv, .separateEv, .asrEv], none⟩ := by
      simp [innerRun, hwo, hcv, hci, har, h]
    refine ⟨by rw [hinner], ?_, ?_, ?_,
      response_of_inner_error hv (by rw [hinner])⟩ <;> rw [hinner] <;> decide
  · intro r tr har ht htr h
    have hinner : innerRun env tgt =
        ⟨.error "Translation failed to produce output.",
         [.writeOriginalEv, .convertEv, .separateEv, .asrEv, .translateEv],
         some (transcriptTextOf r, srcLangOf r, translationLangFor tgt)⟩ := by
      simp [innerRun, hwo, hcv, hci, har, ht, htr, h]
    have hev : (innerRun env tgt).events =
        [.writeOriginalEv, .convertEv, .separateEv, .asrEv, .translateEv] := by
      rw [hinner]
    refine ⟨by rw [hinner], ?_, ?_,
      response_of_inner_error hv (by rw [hinner])⟩ <;> rw [hev] <;> decide

/-- Witness for C5 on a text-less ASR result and on an empty translation. -/
theorem empty_collaborator_output_is_error_check :
    (innerRun envEmptyASR "es").result =
      Except.error "Unable to derive transcript from audio." ∧
    (POSTrun envEmptyASR).response = genericFailure ∧
    (innerRun envEmptyTrans "es").result =
      Except.error "Translation failed to produce output." ∧
    (POSTrun envEmptyTrans).response = genericFailure := by
  have h1 := (empty_collaborator_output_is_error envEmptyASR okBag "es"
      ⟨rfl, rfl, rfl, by decide⟩ rfl rfl rfl).1 (.obj none none) rfl rfl
  have h2 := (empty_collaborator_output_is_error envEmptyTrans okBag "es"
      ⟨rfl, rfl, rfl, by decide⟩ rfl rfl rfl).2
      (.obj (some "hello world") (some "en")) (.str "") rfl (by decide) rfl rfl
  exact ⟨h1.1, h1.2.2.2.2, h2.1, h2.2.2.2⟩

/-- C6: the translator is always invoked with `src_lang` computed by the
detection fallback — English whenever the detected source language is
absent or unsupported — while a PRESENT unsupported user-requested target
language is rejected with 400 before any stage runs, never replaced by a
default. -/
theorem detected_language_fallback_only :
    (∀ (env : StageEnv) (tgt : String) (r : ASRResult),
      env.writeOriginalRes = .ok () → env.convertToWavRes = .ok () →
      env.createInstrumentalRes = .ok () → env.asrRes = .ok r →
      transcriptTextOf r ≠ "" →
      (innerRun env tgt).translatorArgs =
        some (transcriptTextOf r, srcLangOf r, translationLangFor tgt) ∧
      ((detectedLanguageOf r = none ∨
        (∀ l, detectedLanguageOf r = some l → isSupportedLanguage l = false)) →
        srcLangOf r = "en")) ∧
    (∀ (env : StageEnv) (bag : FormDataBag) (s : String),
      env.formDataRes = .ok bag → audioIsFile bag = true →
      bag.targetLanguage = some (.str s) → isSupportedLanguage s = false →
      (POSTrun env).response = ⟨400, .text "Unsupported target language"⟩ ∧
      (POSTrun env).workspaceCreated = false ∧ (POSTrun env).events = []) := by
  constructor
  · intro env tgt r hwo hcv hci har ht
    constructor
    · simp only [innerRun, hwo, hcv, hci, har]
      rw [if_neg ht]
      cases env.translatorRes with
      | error m => rfl
      | ok tr2 =>
        by_cases h2 : translatedTextOf tr2 = ""
        · simp [h2]
        · simp only [h2, if_false, ite_false]
          cases env.ttsRes with
          | error m => rfl
          | ok v1 =>
            cases env.encodeRes with
            | error m => rfl
            | ok v2 =>
              cases env.writeVoiceRes with
              | error m => rfl
              | ok v3 =>
                cases env.normalizeVoiceRes with
                | error m => rfl
                | ok v4 =>
                  cases env.mixTracksRes with
                  | error m => rfl
                  | ok v5 =>
                    cases env.readMixRes with
                    | error m => rfl
                    | ok bytes => rfl
    · intro hcase
      unfold srcLangOf
      cases hd : detectedLanguageOf r with
      | none => rfl
      | some l =>
        rcases hcase with h | h
        · rw [hd] at h
          simp at h
        · have hsup := h l hd
          simp [hsup]
  · intro env bag s hf haud htv hbad
    have htr : targetRawOf bag = FormValue.str s := by simp [targetRawOf, htv]
    have h := target_invalid_response hf htr (fun s' hs' => by cases hs'; exact hbad)
    exact ⟨h.2.2.2 haud, h.2.1, h.2.2.1⟩

/-- Witness for C6 on an ASR result with no detected language and on a
present unsupported target. -/
theorem detected_language_fallback_only_check :
    (innerRun envNoDetect "es").translatorArgs = some ("hello world", "en", "es") ∧
    (POSTrun envBadLang).response = ⟨400, RespBody.text "Unsupported target language"⟩ := by
  have h1 := detected_language_fallback_only.1 envNoDetect "es"
      (.obj (some "hello world") none) rfl rfl rfl rfl (by decide)
  have h2 := detected_language_fallback_only.2 envBadLang badLangBag "zz"
      rfl rfl rfl (by decide)
  exact ⟨h1.1, h2.1⟩

/-- C7: once validation passes, the caller sees either the 200 success
response or the single generic 500 "Failed to process audio" response; an
inner error's message goes only to the diagnostic log, and the two
specific 400 messages arise only from the pre-stage validation checks. -/
theorem internal_errors_generic_response :
    (∀ (env : StageEnv) (bag : FormDataBag) (tgt : String),
      validationPasses env bag tgt →
      (POSTrun env).response.status = 200 ∨ (POSTrun env).response = genericFailure) ∧
    (∀ (env : StageEnv) (bag : FormDataBag) (tgt m : String),
      validationPasses env bag tgt → env.mkdtempRes = .ok () →
      (innerRun env tgt).result = .error m → env.rmRes = .ok () →
      (POSTrun env).response = genericFailure ∧ (POSTrun env).logged = [m]) ∧
    (∀ (env : StageEnv) (bag : FormDataBag),
      env.formDataRes = .ok bag → audioIsFile bag = false →
      (POSTrun env).response = ⟨400, .text "Missing audio file payload"⟩) ∧
    (∀ (env : StageEnv) (bag : FormDataBag) (s : String),
      env.formDataRes = .ok bag → audioIsFile bag = true →
      targetRawOf bag = .str s → isSupportedLanguage s = false →
      (POSTrun env).response = ⟨400, .text "Unsupported target language"⟩) := by
  refine ⟨?_, ?_, ?_, ?_⟩
  · intro env bag tgt hv
    rw [POSTrun_valid hv]
    cases hmk : env.mkdtempRes with
    | error m => right; simp [afterValidation, hmk]
    | ok u =>
      cases hrm : env.rmRes with
      | error mr => right; simp [afterValidation, hmk, afterWorkspace, hrm]
      | ok u' =>
        cases hres : (innerRun env tgt).result with
        | ok bytes => left; simp [afterValidation, hmk, afterWorkspace, hrm, hres]
        | error m => right; simp [afterValidation, hmk, afterWorkspace, hrm, hres]
  · intro env bag tgt m hv hmk he hrm
    rw [POSTrun_valid hv]
    simp [afterValidation, hmk, afterWorkspace, hrm, he]
  · intro env bag hf haud
    cases ha : bag.audio with
    | none => simp [POSTrun, hf, handleBag, ha]
    | some v =>
      cases v with
      | file n b =>
        unfold audioIsFile at haud
        rw [ha] at haud
        simp at haud
      | str s => simp [POSTrun, hf, handleBag, ha]
  · intro env bag s hf haud htr hbad
    exact (target_invalid_response hf htr (fun s' hs' => by cases hs'; exact hbad)).2.2.2 haud

/-- Witness for C7 on a failing mix stage and a missing audio payload. -/
theorem internal_errors_generic_response_check :
    (POSTrun envStageFail).response = genericFailure ∧
    (POSTrun envStageFail).logged = ["ffmpeg exited with code 1"] ∧
    (POSTrun envNoAudio).response = ⟨400, RespBody.text "Missing audio file payload"⟩ := by
  have h2 := internal_errors_generic_response.2.1 envStageFail okBag "es"
      "ffmpeg exited with code 1" ⟨rfl, rfl, rfl, by decide⟩ rfl rfl rfl
  have h3 := internal_errors_generic_response.2.2.1 envNoAudio ⟨none, none⟩ rfl rfl
  exact ⟨h2.1, h2.2, h3⟩

/-- C8: the stage trace of every run is an initial segment of the canonical
source-ordered stage sequence — so no stage is entered after a failure —
and a successful run performs exactly the canonical sequence, in which
both the instrumental branch (`separateEv`) and the voice branch
(`asrEv … normalizeEv`) precede `mixEv`; the handler's observable trace is
the inner run's trace. -/
theorem stage_order_and_convergence :
    (∀ (env : StageEnv) (tgt : String), (innerRun env tgt).events <+: canonicalEvents) ∧
    (∀ (env : StageEnv) (tgt : String) (bytes : List Nat),
      (innerRun env tgt).result = .ok bytes →
      (innerRun env tgt).events = canonicalEvents) ∧
    (∀ (env : StageEnv) (bag : FormDataBag) (tgt : String),
      validationPasses env bag tgt → env.mkdtempRes = .ok () →
      (POSTrun env).events = (innerRun env tgt).events) := by
  refine ⟨?_, ?_, ?_⟩
  · intro env tgt
    unfold innerRun
    repeat' split
    all_goals first
      | exact ⟨[], rfl⟩
      | exact ⟨_, rfl⟩
  · intro env tgt bytes
    unfold innerRun
    repeat' split
    all_goals intro h
    all_goals simp_all
  · intro env bag tgt hv hmk
    rw [POSTrun_valid hv]
    cases hrm : env.rmRes with
    | error mr => simp [afterValidation, hmk, afterWorkspace, hrm]
    | ok u =>
      cases hres : (innerRun env tgt).result <;>
        simp [afterValidation, hmk, afterWorkspace, hrm, hres]

/-- Witness for C8 on the all-success request. -/
theorem stage_order_and_convergence_check :
    (innerRun envAll "es").events = canonicalEvents ∧
    (POSTrun envAll).events = (innerRun envAll "es").events :=
  ⟨stage_order_and_convergence.2.1 envAll "es" [9, 9, 9] rfl,
   stage_order_and_convergence.2.2 envAll okBag "es" ⟨rfl, rfl, rfl, by decide⟩ rfl⟩

/-- C9 (spec-modelled): the source separator is length-preserving — on
every valid `AudioBuffer` it succeeds and returns a buffer with the same
sample rate, the same channel count, and the same per-channel sample
count. -/
theorem separator_length_preserving (b : AudioBuffer) (hb : validBuffer b) :
    ∃ out, separateInstrumental b = .ok out ∧
      out.sampleRate = b.sampleRate ∧
      out.channels.length = b.channels.length ∧
      out.channels.map List.length = b.channels.map List.length := by
  obtain ⟨hcount, hlen⟩ := hb
  rcases hcount with h1 | h2
  · obtain ⟨c, hc⟩ := List.length_eq_one.mp h1
    exact ⟨⟨[attenuate c], b.sampleRate⟩, by simp [separateInstrumental, hc], rfl,
      by simp [hc], by simp [hc, attenuate]⟩
  · obtain ⟨l, r, hlr⟩ := List.length_eq_two.mp h2
    have heq : l.length = r.length :=
      hlen l (by rw [hlr]; simp) r (by rw [hlr]; simp)
    have hside : (List.zipWith (fun x y => x - y) l r).length = l.length := by
      rw [List.length_zipWith, heq, Nat.min_self]
    refine ⟨⟨[List.zipWith (fun x y => x - y) l r,
             List.zipWith (fun x y => x - y) l r], b.sampleRate⟩, ?_, rfl, ?_, ?_⟩
    · simp [separateInstrumental, hlr, heq]
    · simp [hlr]
    · simp [hlr, hside, heq]

/-- Witness for C9 on a concrete valid stereo buffer. -/
theorem separator_length_preserving_check :
    validBuffer bufStereo ∧
    ∃ out, separateInstrumental bufStereo = .ok out ∧
      out.sampleRate = bufStereo.sampleRate ∧
      out.channels.length = bufStereo.channels.length ∧
      out.channels.map List.length = bufStereo.channels.map List.length := by
  have hv : validBuffer bufStereo := by
    constructor
    · right; rfl
    · decide
  exact ⟨hv, separator_length_preserving bufStereo hv⟩
